import Mathlib

/-!
Verification of the streaming/message-delivery core of the letta-telegram relay
(`src/main.py`) against its natural-language specification.

Strings are modelled at the granularity Python operates on: a Python `str` is a
sequence of Unicode code points, so it is embedded as `List Char` (for the byte
oriented splitter) or Lean `String` (for the event pipeline).  All definitions
are direct translations of the Python source; line numbers refer to
`src/main.py`.
-/

namespace LettaTelegram

/-- Number of bytes contributed by one code point to the UTF-8 encoding of a
Python string (`len(str.encode("utf-8"))` counts each code point like this). -/
def utf8CharLen (c : Char) : Nat :=
  if c.toNat < 128 then 1
  else if c.toNat < 2048 then 2
  else if c.toNat < 65536 then 3
  else 4

/-- `len(s.encode("utf-8"))` for a Python string modelled as its code points. -/
def utf8Len (s : List Char) : Nat := (s.map utf8CharLen).sum

/-- The whitespace class used by Python `str.strip()` (the ASCII part; the
source never strips non-ASCII whitespace in the scenarios specified). -/
def pyIsSpace (c : Char) : Bool :=
  c == ' ' || c == '\t' || c == '\n' || c == '\r' || c == '\x0b' || c == '\x0c'

/-- Python `s.strip()`: drop leading and trailing whitespace. -/
def pyStrip (l : List Char) : List Char :=
  ((l.dropWhile pyIsSpace).reverse.dropWhile pyIsSpace).reverse

/-- Python `for i in range(hi, 0, -1): if p(i): return i` — the backwards scan
used by each boundary search in `split_message_at_boundary`
(src/main.py lines 3008, 3015, 3022, 3030). Returns the largest
`i ∈ [1, hi]` with `p i`, or `none`. -/
def findDown (p : Nat → Bool) : Nat → Option Nat
  | 0 => none
  | n + 1 => if p (n + 1) then some (n + 1) else findDown p n

/-- Boundary search 1 (src/main.py lines 3007-3011): the rightmost `i` with
`remaining[i-1:i+1] == "\n\n"` whose prefix `remaining[:i]` fits the budget. -/
def findDoubleNewline (r : List Char) (B : Nat) : Option Nat :=
  findDown
    (fun i => (r[i-1]? == some '\n') &&
      ((r[i]? == some '\n') && decide (utf8Len (r.take i) ≤ B)))
    (r.length - 1)

/-- Boundary search 2 (src/main.py lines 3013-3018): rightmost single `'\n'`. -/
def findSingleNewline (r : List Char) (B : Nat) : Option Nat :=
  findDown
    (fun i => (r[i]? == some '\n') && decide (utf8Len (r.take i) ≤ B))
    (r.length - 1)

/-- Boundary search 3 (src/main.py lines 3020-3025): rightmost `' '`. -/
def findSpaceBoundary (r : List Char) (B : Nat) : Option Nat :=
  findDown
    (fun i => (r[i]? == some ' ') && decide (utf8Len (r.take i) ≤ B))
    (r.length - 1)

/-- Boundary search 4 (src/main.py lines 3027-3033): the largest prefix (by
code points, hence never inside a code point) whose UTF-8 encoding fits. -/
def findHardCut (r : List Char) (B : Nat) : Option Nat :=
  findDown (fun i => decide (utf8Len (r.take i) ≤ B)) r.length

/-- The ordered boundary preference of the loop body
(src/main.py lines 3004-3033). -/
def findSplitPos (r : List Char) (B : Nat) : Option Nat :=
  match findDoubleNewline r B with
  | some i => some i
  | none =>
    match findSingleNewline r B with
    | some i => some i
    | none =>
      match findSpaceBoundary r B with
      | some i => some i
      | none => findHardCut r B

/-- The `while` loop of `split_message_at_boundary` together with the trailing
`if remaining: chunks.append(remaining)` (src/main.py lines 3003-3046).
One iteration: pick the preferred split position, strip the chunk, keep it if
non-empty, strip the remainder and continue; if no position is found the loop
breaks and the (oversized) remainder is appended as-is.  The loop strictly
shortens `remaining` on every iteration (the split position is at least 1), so
recursion on a fuel of `remaining.length` realises the loop exactly; this is
proved as `splitLoopF_fuel_irrelevant` below. -/
def splitLoopF (B : Nat) : Nat → List Char → List (List Char)
  | 0, r => if r = [] then [] else [r]
  | fuel + 1, r =>
    if r ≠ [] ∧ B < utf8Len r then
      match findSplitPos r B with
      | some sp =>
        (if pyStrip (r.take sp) = [] then [] else [pyStrip (r.take sp)]) ++
          splitLoopF B fuel (pyStrip (r.drop sp))
      | none => [r]
    else if r = [] then [] else [r]

/-- `split_message_at_boundary(text, max_bytes)` (src/main.py lines 2992-3048):
if the whole text fits the budget it is returned untouched as the single chunk;
otherwise the loop splits at natural boundaries. -/
def split_message_at_boundary (text : List Char) (maxBytes : Nat) :
    List (List Char) :=
  if utf8Len text ≤ maxBytes then [text]
  else splitLoopF maxBytes text.length text

/-- The 9000-byte ASCII input of the C7 example: its only paragraph break
(double newline) is at bytes 3500-3501. -/
def C7text : List Char :=
  List.replicate 3500 'a' ++ '\n' :: '\n' :: List.replicate 5498 'a'



/-! ### C9: the 4096-byte limit is enforced before markdown conversion -/

/-- The MarkdownV2 special characters escaped by the fallback branch of
`convert_to_telegram_markdown` (src/main.py line 2986). -/
def telegramSpecialChars : List Char :=
  ['_', '*', '[', ']', '(', ')', '~', Char.ofNat 96, '>', '#', '+', '-', '=',
   '|', Char.ofNat 123, Char.ofNat 125, '.', '!']

/-- Python `escaped.replace(ch, "\\" + ch)` for a one-character target
(src/main.py line 2989). -/
def pyReplaceEscape (ch : Char) (s : List Char) : List Char :=
  (s.map (fun x => if x = ch then ['\\', ch] else [x])).flatten

/-- `convert_to_telegram_markdown` (src/main.py lines 2973-2990).  The primary
path delegates to the external `telegramify_markdown` library (not part of this
repository); the function is modelled by its in-repo fallback branch (lines
2984-2990), which escapes every MarkdownV2 special character with a
backslash — like the library, conversion can only lengthen the text. -/
def convert_to_telegram_markdown (s : List Char) : List Char :=
  telegramSpecialChars.foldl (fun acc ch => pyReplaceEscape ch acc) s

/-- The per-chunk payload texts posted to the Telegram API by
`send_telegram_message` (src/main.py lines 3050-3090): the input is split
under the 4096-byte limit FIRST (line 3061) and markdown conversion is applied
to each chunk AFTER splitting (line 3073). -/
def send_telegram_message_payloads (text : List Char) : List (List Char) :=
  (split_message_at_boundary text 4096).map convert_to_telegram_markdown


/-! ### A minimal JSON model

Modelled from the spec: the Python standard library functions `json.loads` and
`json.dumps` used by the event pipeline (src/main.py lines 746, 794, 826) are
not part of this repository; they are modelled here for the JSON fragment the
pipeline manipulates (strings, integers, booleans, null, arrays, objects —
floats, exponents and `\u` escapes are not modelled). -/

inductive Json where
  | str (s : String)
  | num (n : Int)
  | bool (b : Bool)
  | null
  | arr (xs : List Json)
  | obj (fields : List (String × Json))

/-- Whitespace accepted between JSON tokens. -/
def jsonSkipWs (cs : List Char) : List Char :=
  cs.dropWhile (fun c => c == ' ' || c == '\t' || c == '\n' || c == '\r')

def isJsonDigit (c : Char) : Bool := '0' ≤ c && c ≤ '9'

def digitsToNat (ds : List Char) : Nat :=
  ds.foldl (fun acc c => acc * 10 + (c.toNat - 48)) 0

/-- Parse the remainder of a JSON string literal (after the opening quote),
returning the decoded characters and the input after the closing quote. -/
def jsonStringChars : Nat → List Char → Option (List Char × List Char)
  | 0, _ => none
  | _ + 1, [] => none
  | fuel + 1, c :: rest =>
    if c = '"' then some ([], rest)
    else if c = '\\' then
      match rest with
      | [] => none
      | e :: rest2 =>
        let d? : Option Char :=
          if e = '"' then some '"'
          else if e = '\\' then some '\\'
          else if e = '/' then some '/'
          else if e = 'n' then some '\n'
          else if e = 't' then some '\t'
          else if e = 'r' then some '\r'
          else if e = 'b' then some (Char.ofNat 8)
          else if e = 'f' then some (Char.ofNat 12)
          else none
        match d? with
        | none => none
        | some d =>
          match jsonStringChars fuel rest2 with
          | none => none
          | some (cs, rem) => some (d :: cs, rem)
    else
      match jsonStringChars fuel rest with
      | none => none
      | some (cs, rem) => some (c :: cs, rem)

mutual

/-- Parse one JSON value (integers only among numbers). -/
def jsVal : Nat → List Char → Option (Json × List Char)
  | 0, _ => none
  | fuel + 1, cs =>
    match jsonSkipWs cs with
    | [] => none
    | c :: rest =>
      if c = '"' then
        match jsonStringChars rest.length rest with
        | none => none
        | some (s, rem) => some (Json.str (String.mk s), rem)
      else if c = 't' then
        match rest with
        | 'r' :: 'u' :: 'e' :: rem => some (Json.bool true, rem)
        | _ => none
      else if c = 'f' then
        match rest with
        | 'a' :: 'l' :: 's' :: 'e' :: rem => some (Json.bool false, rem)
        | _ => none
      else if c = 'n' then
        match rest with
        | 'u' :: 'l' :: 'l' :: rem => some (Json.null, rem)
        | _ => none
      else if c = '[' then
        match jsonSkipWs rest with
        | ']' :: rem => some (Json.arr [], rem)
        | _ => jsArrItems fuel rest []
      else if c = '\x7b' then
        match jsonSkipWs rest with
        | '\x7d' :: rem => some (Json.obj [], rem)
        | _ => jsObjItems fuel rest []
      else if c = '-' then
        let ds := rest.takeWhile isJsonDigit
        if ds = [] then none
        else some (Json.num (-(digitsToNat ds : Int)), rest.dropWhile isJsonDigit)
      else if isJsonDigit c then
        let ds := (c :: rest).takeWhile isJsonDigit
        some (Json.num (digitsToNat ds : Int), (c :: rest).dropWhile isJsonDigit)
      else none
termination_by structural fuel => fuel

/-- Parse the items of a non-empty JSON array (after `[`). -/
def jsArrItems : Nat → List Char → List Json → Option (Json × List Char)
  | 0, _, _ => none
  | fuel + 1, cs, acc =>
    match jsVal fuel cs with
    | none => none
    | some (v, rest) =>
      match jsonSkipWs rest with
      | ',' :: rem => jsArrItems fuel rem (acc ++ [v])
      | ']' :: rem => some (Json.arr (acc ++ [v]), rem)
      | _ => none
termination_by structural fuel => fuel

/-- Parse the members of a non-empty JSON object (after the opening brace). -/
def jsObjItems : Nat → List Char → List (String × Json) →
    Option (Json × List Char)
  | 0, _, _ => none
  | fuel + 1, cs, acc =>
    match jsonSkipWs cs with
    | '"' :: rest =>
      match jsonStringChars rest.length rest with
      | none => none
      | some (key, rem) =>
        match jsonSkipWs rem with
        | ':' :: rem2 =>
          match jsVal fuel rem2 with
          | none => none
          | some (v, rem3) =>
            match jsonSkipWs rem3 with
            | ',' :: rem4 => jsObjItems fuel rem4 (acc ++ [(String.mk key, v)])
            | '\x7d' :: rem4 => some (Json.obj (acc ++ [(String.mk key, v)]), rem4)
            | _ => none
        | _ => none
    | _ => none
termination_by structural fuel => fuel

end

/-- Python `json.loads`: the whole input must be exactly one JSON value. -/
def jsonLoads (s : String) : Option Json :=
  match jsVal (2 * s.data.length + 2) s.data with
  | none => none
  | some (v, rest) => if jsonSkipWs rest = [] then some v else none

/-- Structural size of a JSON value, used as recursion fuel for the
renderers below (it bounds their nesting depth). -/
def jsonSize : Json → Nat
  | .str _ => 1
  | .num _ => 1
  | .bool _ => 1
  | .null => 1
  | .arr xs => 1 + (xs.attach.map (fun x => jsonSize x.1)).sum
  | .obj fs => 1 + (fs.attach.map (fun kv => jsonSize kv.1.2)).sum
termination_by j => sizeOf j
decreasing_by
  · have h := List.sizeOf_lt_of_mem x.2
    simp only [Json.arr.sizeOf_spec]
    omega
  · rcases kv with ⟨⟨k, v⟩, hm⟩
    have h := List.sizeOf_lt_of_mem hm
    simp only [Prod.mk.sizeOf_spec] at h
    simp only [Json.obj.sizeOf_spec]
    omega

/-- Python `repr` of a parsed-JSON value (used when such a value is
interpolated into an f-string as part of a container); the fuel is the size
of the value, which bounds the nesting depth. -/
def jsonPyReprF : Nat → Json → String
  | _, .str s => "\x27" ++ s ++ "\x27"
  | _, .num n => toString n
  | _, .bool true => "True"
  | _, .bool false => "False"
  | _, .null => "None"
  | 0, _ => ""
  | fuel + 1, .arr xs => "[" ++ String.intercalate ", "
      (xs.map (fun x => jsonPyReprF fuel x)) ++ "]"
  | fuel + 1, .obj fs => "\x7b" ++ String.intercalate ", "
      (fs.map (fun kv =>
        "\x27" ++ kv.1 ++ "\x27: " ++ jsonPyReprF fuel kv.2)) ++ "\x7d"

def jsonPyRepr (j : Json) : String := jsonPyReprF (jsonSize j) j

/-- Python `str` of a parsed-JSON value, as an f-string interpolates it:
strings appear bare, everything else by its repr. -/
def jsonToPyStr : Json → String
  | .str s => s
  | j => jsonPyRepr j

/-- Escapes inside a JSON string emitted by `json.dumps`. -/
def jsonDumpEscape (s : String) : String :=
  String.mk ((s.data.map (fun c =>
    if c = '"' then ['\\', '"']
    else if c = '\\' then ['\\', '\\']
    else if c = '\n' then ['\\', 'n']
    else if c = '\t' then ['\\', 't']
    else if c = '\r' then ['\\', 'r']
    else [c])).flatten)

/-- Python `json.dumps(obj, indent=2)` (src/main.py line 794), rendering a
value whose surrounding indentation is `ind` spaces; the fuel is the size of
the value, which bounds the nesting depth. -/
def jsonDumpsAtF : Nat → Nat → Json → String
  | _, _, .str s => "\"" ++ jsonDumpEscape s ++ "\""
  | _, _, .num n => toString n
  | _, _, .bool true => "true"
  | _, _, .bool false => "false"
  | _, _, .null => "null"
  | _, _, .arr [] => "[]"
  | _, _, .obj [] => "\x7b\x7d"
  | 0, _, _ => ""
  | fuel + 1, ind, .arr (x :: xs) =>
    "[\n" ++ String.intercalate ",\n"
      ((x :: xs).map (fun y =>
        String.mk (List.replicate (ind + 2) ' ') ++ jsonDumpsAtF fuel (ind + 2) y))
      ++ "\n" ++ String.mk (List.replicate ind ' ') ++ "]"
  | fuel + 1, ind, .obj (f :: fs) =>
    "\x7b\n" ++ String.intercalate ",\n"
      ((f :: fs).map (fun kv =>
        String.mk (List.replicate (ind + 2) ' ') ++ "\"" ++
          jsonDumpEscape kv.1 ++ "\": " ++ jsonDumpsAtF fuel (ind + 2) kv.2))
      ++ "\n" ++ String.mk (List.replicate ind ' ') ++ "\x7d"

/-- `json.dumps(args_obj, indent=2)`. -/
def jsonDumps (j : Json) : String := jsonDumpsAtF (jsonSize j) 0 j

/-- Lookup in a parsed JSON object, i.e. Python `args_obj[key]` returning
`None`-as-`Option.none` where Python would raise `KeyError`. -/
def jsField (fs : List (String × Json)) (k : String) : Option Json :=
  (fs.find? (fun kv => kv.1 == k)).map (fun kv => kv.2)


/-! ### The streaming event pipeline of `process_message_async` -/

/-- Python `s.strip()` on a `String`. -/
def pyStripS (s : String) : String := String.mk (pyStrip s.data)

/-- Python `message.split("\n")`: split at every newline; the empty string
yields the one-element list `[""]`. -/
def pySplitNl : List Char → List (List Char)
  | [] => [[]]
  | c :: rest =>
    if c = '\n' then [] :: pySplitNl rest
    else
      match pySplitNl rest with
      | [] => [[c]]
      | l :: ls => (c :: l) :: ls

/-- Python `"\n".join(lines)`. -/
def pyJoinNl : List (List Char) → List Char
  | [] => []
  | [l] => l
  | l :: ls => l ++ '\n' :: pyJoinNl ls

/-- `blockquote_message` (src/main.py lines 1141-1145): prefix every line,
including empty ones, with `"> "`. -/
def blockquote_message (message : String) : String :=
  String.mk (pyJoinNl ((pySplitNl message.data).map
    (fun line => '>' :: ' ' :: line)))

/-- One agent-stream event, as duck-typed by the consumer loop
(src/main.py lines 714-741): one variant per `message_type` the code
distinguishes, a catch-all for any other `message_type`, and a variant for
events lacking the discriminant entirely.  The payload strings mirror
`getattr(event, ..., "")` with its empty-string default folded in. -/
inductive AgentEvent where
  | assistantMessage (content : String)
  | reasoningMessage (reasoning : String)
  | systemAlert (message : String)
  | toolCallMessage (name : String) (arguments : String)
  | otherType (messageType : String)
  | noMessageType
deriving DecidableEq

/-- One observable interaction with the Telegram transport: a
`send_telegram_message` attempt (recording whether the transport accepted it)
or a `send_telegram_typing` signal. -/
inductive Output where
  | message (chatId text : String) (delivered : Bool)
  | typing (chatId : String)
deriving DecidableEq

/-- Mutable loop state of the consumer (src/main.py lines 699-701): the
`last_activity` clock, plus a counter indexing `send_telegram_message` calls
into the transport oracle.  `start_time` (line 699) and `timeout_seconds`
(line 701) are also assigned by the source but never read again afterwards,
so they are not part of the live state. -/
structure ConsumeState where
  lastActivity : Nat
  sendCount : Nat
deriving DecidableEq

/-- The 2-minute timeout assigned — but never enforced — at src/main.py
line 701 (`timeout_seconds = 120`). -/
def timeout_seconds : Nat := 120

/-- A transport oracle that accepts every send. -/
def alwaysOk : Nat → Bool := fun _ => true

/-- One `send_telegram_message` call (src/main.py line 3050): the oracle says
whether the transport accepts send number `k`; a refused send models the
function raising (lines 3083-3095), which the per-event handler catches. -/
def sendTelegram (sendOk : Nat → Bool) (st : ConsumeState)
    (chatId text : String) : ConsumeState × Output × Bool :=
  ({ st with sendCount := st.sendCount + 1 },
   Output.message chatId text (sendOk st.sendCount), sendOk st.sendCount)

/-- The raw-argument fallback rendering of a tool call (src/main.py
line 799), used when `json.loads` or the per-tool rendering fails. -/
def toolCallFallback (agentName toolName arguments : String) : String :=
  "(**" ++ agentName ++ "** using tool: " ++ toolName ++ ")\n```\n" ++
    arguments ++ "\n```"

/-- The per-tool rendering applied after `json.loads` succeeds
(src/main.py lines 748-795).  `none` models the rendering raising — a
`KeyError` on a missing key, a `TypeError` when a non-object is subscripted,
an `AttributeError` when `blockquote_message` is applied to a non-string —
which the source catches at line 797 and turns into the raw fallback. -/
def renderToolParsed (agentName toolName : String) (j : Json) : Option String :=
  match j with
  | Json.obj fs =>
    if toolName == "archival_memory_insert" then
      match jsField fs "content" with
      | some (Json.str content) =>
        some ("(**" ++ agentName ++ "** remembered)\n" ++
          blockquote_message content)
      | _ => none
    else if toolName == "archival_memory_search" then
      match jsField fs "query" with
      | some q =>
        some ("(**" ++ agentName ++ "** searching: " ++ jsonToPyStr q ++ ")")
      | none => none
    else if toolName == "memory_insert" then
      match jsField fs "label", jsField fs "insert_line",
          jsField fs "new_str" with
      | some _, some _, some (Json.str newStr) =>
        some ("(**" ++ agentName ++ "** updating memory)\n\n" ++
          blockquote_message newStr)
      | _, _, _ => none
    else if toolName == "memory_replace" then
      match jsField fs "label", jsField fs "old_str", jsField fs "new_str" with
      | some _, some (Json.str oldStr), some (Json.str newStr) =>
        some ("(**" ++ agentName ++ "** modifying memory)" ++ "New:\n" ++
          blockquote_message newStr ++ "\n" ++ "Old:\n" ++
          blockquote_message oldStr ++ "\n")
      | _, _, _ => none
    else if toolName == "run_code" then
      some ("(**" ++ agentName ++ "** ran code)\n```" ++
        (match jsField fs "language" with
         | some v => jsonToPyStr v
         | none => "python") ++ "\n" ++
        (match jsField fs "code" with
         | some v => jsonToPyStr v
         | none => "") ++ "\n```")
    else
      some ("(**" ++ agentName ++ "** using tool: " ++ toolName ++
        ")\n```json\n" ++ jsonDumps j ++ "\n```")
  | _ =>
    if toolName == "archival_memory_insert" ||
        toolName == "archival_memory_search" || toolName == "memory_insert" ||
        toolName == "memory_replace" || toolName == "run_code" then
      none
    else
      some ("(**" ++ agentName ++ "** using tool: " ++ toolName ++
        ")\n```json\n" ++ jsonDumps j ++ "\n```")

/-- Processing of one streamed event by the consumer loop body
(src/main.py lines 703-806): the still-processing probe (lines 708-711,
outside the per-event `try`), then the per-event `try` block dispatching on
`message_type` (lines 714-802).  An exception raised by a
`send_telegram_message` call (a refused send) is caught by the per-event
handler at line 804, so it only skips that event's `last_activity` update and
the loop continues.  There is no check of `timeout_seconds` anywhere in the
body. -/
def processEvent (sendOk : Nat → Bool) (agentName chatId : String)
    (st : ConsumeState) (t : Nat) (ev : AgentEvent) :
    ConsumeState × List Output :=
  let stT : ConsumeState × List Output :=
    if 30 < t - st.lastActivity then
      ({ st with lastActivity := t }, [Output.typing chatId])
    else (st, [])
  let st1 := stT.1
  let deliver := fun (text : String) =>
    let r := sendTelegram sendOk st1 chatId text
    ((if r.2.2 then { r.1 with lastActivity := t } else r.1),
      stT.2 ++ [r.2.1])
  match ev with
  | .assistantMessage content =>
    if content ≠ "" ∧ pyStripS content ≠ "" then
      deliver ("(**" ++ agentName ++ "** says)\n\n" ++ content)
    else (st1, stT.2)
  | .reasoningMessage reasoning =>
    deliver ("(**" ++ agentName ++ "** thought)\n\n" ++
      blockquote_message reasoning)
  | .systemAlert message =>
    if message ≠ "" ∧ pyStripS message ≠ "" then
      deliver ("(info: " ++ message ++ ")")
    else (st1, stT.2)
  | .toolCallMessage name arguments =>
    if arguments ≠ "" ∧ pyStripS arguments ≠ "" then
      deliver (match jsonLoads arguments with
        | some obj =>
          match renderToolParsed agentName name obj with
          | some msg => msg
          | none => toolCallFallback agentName name arguments
        | none => toolCallFallback agentName name arguments)
    else (st1, stT.2)
  | .otherType _ => (st1, stT.2)
  | .noMessageType => (st1, stT.2)

/-- The `for event in response_stream:` loop (src/main.py line 703), over the
events the stream yields before completing or raising; each event carries its
arrival time (`time.time()`, in seconds). -/
def consumeEvents (sendOk : Nat → Bool) (agentName chatId : String) :
    ConsumeState → List (Nat × AgentEvent) → ConsumeState × List Output
  | st, [] => (st, [])
  | st, (t, ev) :: rest =>
    let r1 := processEvent sendOk agentName chatId st t ev
    let r2 := consumeEvents sendOk agentName chatId r1.1 rest
    (r2.1, r1.2 ++ r2.2)

/-- A Letta `ApiError` (the SDK exception class caught at src/main.py
line 808): `statusCode` and `body` model `getattr(e, 'status_code', ...)` and
`getattr(e, 'body', ...)` with `none` for a missing attribute; `display`
models Python `str(e)` as used by the outermost handler.  Bodies that are not
strings are not modelled. -/
structure ApiErr where
  statusCode : Option Nat
  body : Option String
  display : String
deriving DecidableEq

/-- A non-API exception raised by the stream (caught at src/main.py
line 845): its type name, `str(e)`, and the attribute strings the handler
extracts at lines 854-862, keyed by attribute name. -/
structure GenErr where
  typeName : String
  message : String
  attrs : List (String × String)
deriving DecidableEq

/-- An exception escaping the stream call or the stream iterator. -/
inductive StreamErr where
  | api (e : ApiErr)
  | other (e : GenErr)
deriving DecidableEq

/-- Python `body[:200]`. -/
def pyTake200 (s : String) : String := String.mk (s.data.take 200)

/-- Does `hay` start with `needle`? -/
def pyStartsWith : List Char → List Char → Bool
  | [], _ => true
  | _ :: _, [] => false
  | n :: ns, h :: hs => n == h && pyStartsWith ns hs

def pyInChars (needle : List Char) : List Char → Bool
  | [] => needle == []
  | h :: rest => pyStartsWith needle (h :: rest) || pyInChars needle rest

/-- Python `needle in hay` for strings (substring test). -/
def pyInStr (needle hay : String) : Bool := pyInChars needle.data hay.data

/-- True when this output is a message whose text contains `needle`. -/
def outputMentions (needle : String) : Output → Bool
  | Output.message _ text _ => pyInStr needle text
  | Output.typing _ => false

/-- The user-facing message built by the `ApiError` handler
(src/main.py lines 822-838).  A body that is not valid JSON raises
`json.JSONDecodeError` at line 826; a parsed body that is not an object
raises `TypeError` either at the `in` test (numbers, booleans, null) or when
subscripted (strings and arrays whose `in` test succeeded); both exceptions
land in the handler at line 837. -/
def apiErrorUserMsg (e : ApiErr) : String :=
  let statusStr := match e.statusCode with
    | some n => toString n
    | none => "unknown"
  let bodyStr := match e.body with
    | some b => b
    | none => "no body available"
  let decodeFail :=
    "Letta Error (HTTP " ++ statusStr ++ "): Server returned an error"
  let truncated :=
    "Letta Error (HTTP " ++ statusStr ++ "): " ++ pyTake200 bodyStr
  match jsonLoads bodyStr with
  | none => decodeFail
  | some (Json.obj fs) =>
    match jsField fs "detail" with
    | some v => "Letta Error: " ++ jsonToPyStr v
    | none =>
      match jsField fs "message" with
      | some v => "Letta Error: " ++ jsonToPyStr v
      | none =>
        match jsField fs "error" with
        | some v => "Letta Error: " ++ jsonToPyStr v
        | none => truncated
  | some (Json.str s) =>
    if pyInStr "detail" s || pyInStr "message" s || pyInStr "error" s then
      decodeFail
    else truncated
  | some (Json.arr xs) =>
    if xs.any (fun x => match x with
        | Json.str s => s == "detail" || s == "message" || s == "error"
        | _ => false) then
      decodeFail
    else truncated
  | some _ => decodeFail

/-- The user-facing message built by the generic exception handler
(src/main.py lines 873-879). -/
def genErrorUserMsg (e : GenErr) : String :=
  match e.attrs.lookup "response" with
  | some _ => "Connection error: " ++ e.message
  | none =>
    match e.attrs.lookup "status_code" with
    | some v => "HTTP Error " ++ v ++ ": " ++ e.message
    | none => "Error communicating with Letta: " ++ e.message

/-- Python `str(e)` for either exception class (`error_info['message']` is
exactly `str(e)` at src/main.py line 849). -/
def strOfErr : StreamErr → String
  | .api e => e.display
  | .other e => e.message

/-- The report the matching handler sends before re-raising
(src/main.py lines 840 and 881). -/
def streamErrAlert : StreamErr → String
  | .api e => "❌ " ++ apiErrorUserMsg e
  | .other e => "❌ " ++ genErrorUserMsg e

/-- The streaming section of `process_message_async`
(src/main.py lines 677-893), starting at the `create_stream` call:
`openResult` is the outcome of opening the stream — an exception of either
class, or the list of yielded events possibly terminated by a mid-iteration
exception.  Returns the transport interactions in order and the exception the
function re-raises, if any.  Per the source, an iterator exception is first
reported by its matching handler (line 840 or 881) and re-raised (line 843 or
884), then caught again by the outermost handler (line 886), which sends its
own report and re-raises once more (line 893).  Alert sends made by the error
handlers themselves are modelled as accepted by the transport. -/
def processMessageStreaming (sendOk : Nat → Bool) (agentName chatId : String)
    (t0 : Nat)
    (openResult : Except StreamErr (List (Nat × AgentEvent) × Option StreamErr)) :
    List Output × Option StreamErr :=
  let body : List Output × Option StreamErr :=
    match openResult with
    | Except.error e =>
      ([Output.message chatId (streamErrAlert e) true], some e)
    | Except.ok (events, iterErr) =>
      let outs := (consumeEvents sendOk agentName chatId
        { lastActivity := t0, sendCount := 0 } events).2
      match iterErr with
      | none => (outs, none)
      | some e =>
        (outs ++ [Output.message chatId (streamErrAlert e) true], some e)
  match body.2 with
  | none => (body.1, none)
  | some e =>
    (body.1 ++ [Output.message chatId
      ("❌ Error in background processing: " ++ strOfErr e) true], some e)

/-- The agent call together with its (absent) retry behaviour:
`create_stream` is invoked exactly once (src/main.py line 679) — the source
contains no retry loop, no backoff and no attempt counter — so the list of
attempt indices used is `[0]` whatever the outcome.  The opener is indexed by
attempt number so that the attempts made are observable in the result. -/
def runAgentCall
    (opener : Nat → Except StreamErr (List (Nat × AgentEvent) × Option StreamErr))
    (sendOk : Nat → Bool) (agentName chatId : String) (t0 : Nat) :
    List Nat × (List Output × Option StreamErr) :=
  ([0], processMessageStreaming sendOk agentName chatId t0 (opener 0))

/-- The `ApiError` used in the retry counterexample: an upstream HTTP 500
whose body is not JSON. -/
def http500 : ApiErr :=
  { statusCode := some 500
    body := some "Internal Server Error"
    display := "status_code: 500, body: Internal Server Error" }

/-! ### Background lemmas about `utf8Len`, `pyStrip` and the boundary scans -/

theorem utf8CharLen_le_four (c : Char) : utf8CharLen c ≤ 4 := by
  unfold utf8CharLen
  split_ifs <;> omega

theorem utf8Len_nil : utf8Len [] = 0 := rfl

theorem utf8Len_cons (c : Char) (l : List Char) :
    utf8Len (c :: l) = utf8CharLen c + utf8Len l := by
  simp [utf8Len]

theorem utf8Len_append (a b : List Char) :
    utf8Len (a ++ b) = utf8Len a + utf8Len b := by
  induction a with
  | nil => simp [utf8Len]
  | cons x xs ih => simp [utf8Len_cons, ih, Nat.add_assoc]

theorem utf8Len_sublist {l₁ l₂ : List Char} (h : List.Sublist l₁ l₂) :
    utf8Len l₁ ≤ utf8Len l₂ := by
  induction h with
  | slnil => exact Nat.le_refl 0
  | cons a _ ih => rw [utf8Len_cons]; omega
  | cons₂ a _ ih => rw [utf8Len_cons, utf8Len_cons]; omega

theorem pyStrip_sublist (l : List Char) : List.Sublist (pyStrip l) l := by
  unfold pyStrip
  have h1 : List.Sublist ((l.dropWhile pyIsSpace).reverse.dropWhile pyIsSpace)
      (l.dropWhile pyIsSpace).reverse := List.dropWhile_sublist _
  have h2 : List.Sublist
      ((l.dropWhile pyIsSpace).reverse.dropWhile pyIsSpace).reverse
      (l.dropWhile pyIsSpace) := by
    have := List.reverse_sublist.mpr h1
    simpa using this
  exact h2.trans (List.dropWhile_sublist _)

theorem utf8Len_pyStrip_le (l : List Char) : utf8Len (pyStrip l) ≤ utf8Len l :=
  utf8Len_sublist (pyStrip_sublist l)

theorem pyStrip_length_le (l : List Char) : (pyStrip l).length ≤ l.length :=
  (pyStrip_sublist l).length_le

theorem findDown_some {p : Nat → Bool} :
    ∀ {n j : Nat}, findDown p n = some j → 1 ≤ j ∧ j ≤ n ∧ p j = true := by
  intro n
  induction n with
  | zero => intro j h; simp [findDown] at h
  | succ n ih =>
    intro j h
    by_cases hp : p (n + 1)
    · simp [findDown, hp] at h
      subst h
      exact ⟨Nat.succ_le_succ (Nat.zero_le n), Nat.le_refl _, hp⟩
    · simp [findDown, hp] at h
      obtain ⟨h1, h2, h3⟩ := ih h
      exact ⟨h1, Nat.le_succ_of_le h2, h3⟩

theorem findSplitPos_some {r : List Char} {B sp : Nat}
    (h : findSplitPos r B = some sp) :
    1 ≤ sp ∧ utf8Len (r.take sp) ≤ B := by
  unfold findSplitPos at h
  rcases h1 : findDoubleNewline r B with _ | i <;> rw [h1] at h
  · rcases h2 : findSingleNewline r B with _ | i <;> rw [h2] at h
    · rcases h3 : findSpaceBoundary r B with _ | i <;> rw [h3] at h
      · obtain ⟨ha, _, hc⟩ := findDown_some h
        exact ⟨ha, by simpa using hc⟩
      · cases h
        obtain ⟨ha, _, hc⟩ := findDown_some h3
        simp only [Bool.and_eq_true, decide_eq_true_eq] at hc
        exact ⟨ha, hc.2⟩
    · cases h
      obtain ⟨ha, _, hc⟩ := findDown_some h2
      simp only [Bool.and_eq_true, decide_eq_true_eq] at hc
      exact ⟨ha, hc.2⟩
  · cases h
    obtain ⟨ha, _, hc⟩ := findDown_some h1
    simp only [Bool.and_eq_true, decide_eq_true_eq] at hc
    exact ⟨ha, hc.2.2⟩

theorem findDown_isSome {p : Nat → Bool} :
    ∀ {n j : Nat}, 1 ≤ j → j ≤ n → p j = true → (findDown p n).isSome := by
  intro n
  induction n with
  | zero => intro j h1 h2 _; omega
  | succ n ih =>
    intro j h1 h2 hp
    by_cases hs : p (n + 1)
    · simp [findDown, hs]
    · have hj : j ≤ n := by
        rcases Nat.lt_or_ge j (n + 1) with h | h
        · omega
        · exfalso; have : j = n + 1 := by omega
          rw [this] at hp; exact hs hp
      simp only [findDown, hs, if_false]
      exact ih h1 hj hp

theorem findHardCut_isSome {r : List Char} {B : Nat} (hr : r ≠ [])
    (hB : 4 ≤ B) : (findHardCut r B).isSome := by
  unfold findHardCut
  apply findDown_isSome (j := 1)
  · exact Nat.le_refl 1
  · exact Nat.one_le_iff_ne_zero.mpr (fun h => hr (List.length_eq_zero.mp h))
  · cases r with
    | nil => exact absurd rfl hr
    | cons a tl =>
      have : (a :: tl).take 1 = [a] := rfl
      rw [this]
      have h4 := utf8CharLen_le_four a
      simp only [decide_eq_true_eq, utf8Len_cons, utf8Len_nil]
      omega

theorem findSplitPos_isSome {r : List Char} {B : Nat} (hr : r ≠ [])
    (hB : 4 ≤ B) : (findSplitPos r B).isSome := by
  unfold findSplitPos
  cases h1 : findDoubleNewline r B with
  | some i => simp
  | none =>
    cases h2 : findSingleNewline r B with
    | some i => simp
    | none =>
      cases h3 : findSpaceBoundary r B with
      | some i => simp
      | none => exact findHardCut_isSome hr hB

/-- The fuel `remaining.length` used in `split_message_at_boundary` is always
sufficient: any two sufficient fuels compute the same chunk list, so the fuel
recursion is a faithful rendering of the source's `while` loop. -/
theorem splitLoopF_fuel_irrelevant (B : Nat) :
    ∀ f₁ f₂ (r : List Char), r.length ≤ f₁ → r.length ≤ f₂ →
      splitLoopF B f₁ r = splitLoopF B f₂ r := by
  intro f₁
  induction f₁ with
  | zero =>
    intro f₂ r h1 _
    have : r = [] := List.length_eq_zero.mp (Nat.le_zero.mp h1)
    subst this
    cases f₂ <;> simp [splitLoopF]
  | succ f₁ ih =>
    intro f₂ r h1 h2
    cases f₂ with
    | zero =>
      have : r = [] := List.length_eq_zero.mp (Nat.le_zero.mp h2)
      subst this
      simp [splitLoopF]
    | succ f₂ =>
      simp only [splitLoopF]
      by_cases hg : r ≠ [] ∧ B < utf8Len r
      · rw [if_pos hg, if_pos hg]
        cases hf : findSplitPos r B with
        | none => rfl
        | some sp =>
          have hrest : (pyStrip (r.drop sp)).length ≤ f₁ ∧
              (pyStrip (r.drop sp)).length ≤ f₂ := by
            have ha := (findSplitPos_some hf).1
            have hb := pyStrip_length_le (r.drop sp)
            have hc : (r.drop sp).length = r.length - sp := List.length_drop sp r
            have hd : r.length ≠ 0 :=
              fun hh => hg.1 (List.length_eq_zero.mp hh)
            omega
          simp only [ih f₂ (pyStrip (r.drop sp)) hrest.1 hrest.2]
      · rw [if_neg hg, if_neg hg]

/-! ### C1: every chunk fits the byte budget -/

theorem splitLoopF_byte_bound (B : Nat) (hB : 4 ≤ B) :
    ∀ n (r : List Char), r.length ≤ n →
      ∀ c ∈ splitLoopF B n r, utf8Len c ≤ B := by
  intro n
  induction n with
  | zero =>
    intro r hr c hc
    have : r = [] := List.length_eq_zero.mp (Nat.le_zero.mp hr)
    subst this
    simp [splitLoopF] at hc
  | succ n ih =>
    intro r hlen c hc
    simp only [splitLoopF] at hc
    split at hc
    case isTrue hg =>
      split at hc
      case h_1 sp hf =>
        rw [List.mem_append] at hc
        rcases hc with hc | hc
        · have hsp := (findSplitPos_some hf).2
          have hle := utf8Len_pyStrip_le (r.take sp)
          split at hc
          · exact absurd hc (List.not_mem_nil c)
          · rw [List.mem_singleton] at hc
            subst hc
            omega
        · have hrest : (pyStrip (r.drop sp)).length ≤ n := by
            have h1 := (findSplitPos_some hf).1
            have h2 := pyStrip_length_le (r.drop sp)
            have h3 : (r.drop sp).length = r.length - sp := List.length_drop sp r
            have h4 : r.length ≠ 0 :=
              fun hh => hg.1 (List.length_eq_zero.mp hh)
            omega
          exact ih (pyStrip (r.drop sp)) hrest c hc
      case h_2 hf =>
        have := findSplitPos_isSome hg.1 hB
        rw [hf] at this
        exact absurd this (by simp)
    case isFalse hg =>
      split at hc
      · exact absurd hc (List.not_mem_nil c)
      case isFalse hne =>
        rw [List.mem_singleton] at hc
        subst hc
        rw [not_and_or] at hg
        rcases hg with hg | hg
        · exact absurd hne (by simpa using hg)
        · omega

/-- C1: for every input text and every byte budget `B ≥ 4`, every chunk
returned by `split_message_at_boundary` has UTF-8 encoded length at most `B`.
The model operates on code-point sequences exactly as Python string slicing
does, so no chunk boundary can fall inside a multi-byte code point: every
chunk is by construction a well-formed character string, and the substantive
byte bound is proved here. -/
theorem C1_splitter_chunks_within_budget (text : List Char) (B : Nat)
    (hB : 4 ≤ B) (c : List Char) (hc : c ∈ split_message_at_boundary text B) :
    utf8Len c ≤ B := by
  unfold split_message_at_boundary at hc
  split at hc
  case isTrue h =>
    rw [List.mem_singleton] at hc
    subst hc
    exact h
  case isFalse h =>
    exact splitLoopF_byte_bound B hB text.length text (Nat.le_refl _) c hc

/-- Witness for C1 at a concrete input: budget 4 on `"hello world"`, whose
first emitted chunk is `"hell"`. -/
theorem C1_witness : utf8Len "hell".data ≤ 4 :=
  C1_splitter_chunks_within_budget "hello world".data 4 (by decide)
    "hell".data (by decide)

/-! ### Trimming: `pyStrip` is idempotent, and chunks built by the loop are
stripped -/

theorem head?_dropWhile_false {p : Char → Bool} {l : List Char} {a : Char}
    (h : (l.dropWhile p).head? = some a) : p a = false := by
  induction l with
  | nil => simp at h
  | cons x xs ih =>
    rw [List.dropWhile_cons] at h
    split at h
    · exact ih h
    · rw [List.head?_cons, Option.some_inj] at h
      subst h
      rename_i hpx
      exact Bool.not_eq_true _ ▸ (by simpa using hpx)

theorem dropWhile_eq_self_of_head {p : Char → Bool} {l : List Char}
    (h : ∀ a, l.head? = some a → p a = false) : l.dropWhile p = l := by
  cases l with
  | nil => rfl
  | cons x xs =>
    rw [List.dropWhile_cons, if_neg]
    simp [h x rfl]

theorem getLast?_dropWhile_of_ne_nil {p : Char → Bool} :
    ∀ {l : List Char}, l.dropWhile p ≠ [] →
      (l.dropWhile p).getLast? = l.getLast? := by
  intro l
  induction l with
  | nil => intro h; simp at h
  | cons x xs ih =>
    intro h
    rw [List.dropWhile_cons]
    rw [List.dropWhile_cons] at h
    split
    case isTrue hp =>
      rw [if_pos hp] at h
      rw [ih h, List.getLast?_cons]
      have hxs : xs ≠ [] := by
        intro hh; subst hh; simp at h
      obtain ⟨b, hb⟩ := Option.isSome_iff_exists.mp
        (List.getLast?_isSome.mpr hxs)
      rw [hb]
      rfl
    case isFalse hp => rfl

theorem pyStrip_head_false {l : List Char} {a : Char}
    (h : (pyStrip l).head? = some a) : pyIsSpace a = false := by
  unfold pyStrip at h
  rw [List.head?_reverse] at h
  have hne : (l.dropWhile pyIsSpace).reverse.dropWhile pyIsSpace ≠ [] := by
    intro hh; rw [hh] at h; simp at h
  rw [getLast?_dropWhile_of_ne_nil hne, ← List.head?_reverse,
    List.reverse_reverse] at h
  exact head?_dropWhile_false h

theorem pyStrip_getLast_false {l : List Char} {a : Char}
    (h : (pyStrip l).getLast? = some a) : pyIsSpace a = false := by
  unfold pyStrip at h
  rw [List.getLast?_reverse] at h
  exact head?_dropWhile_false h

theorem pyStrip_eq_self_of {l : List Char}
    (hh : ∀ a, l.head? = some a → pyIsSpace a = false)
    (hl : ∀ a, l.getLast? = some a → pyIsSpace a = false) :
    pyStrip l = l := by
  unfold pyStrip
  rw [dropWhile_eq_self_of_head hh]
  rw [dropWhile_eq_self_of_head (fun a ha => hl a (by rwa [List.head?_reverse] at ha))]
  exact List.reverse_reverse l

theorem pyStrip_idem (l : List Char) : pyStrip (pyStrip l) = pyStrip l :=
  pyStrip_eq_self_of (fun _ h => pyStrip_head_false h)
    (fun _ h => pyStrip_getLast_false h)

/-! ### C6: trimming and non-emptiness of chunks -/

theorem splitLoopF_trimmed (B : Nat) (hB : 4 ≤ B) :
    ∀ n (r : List Char), r.length ≤ n →
      (B < utf8Len r ∨ pyStrip r = r) →
      ∀ c ∈ splitLoopF B n r, pyStrip c = c ∧ c ≠ [] := by
  intro n
  induction n with
  | zero =>
    intro r hr _ c hc
    have : r = [] := List.length_eq_zero.mp (Nat.le_zero.mp hr)
    subst this
    simp [splitLoopF] at hc
  | succ n ih =>
    intro r hlen hr c hc
    simp only [splitLoopF] at hc
    split at hc
    case isTrue hg =>
      split at hc
      case h_1 sp hf =>
        rw [List.mem_append] at hc
        rcases hc with hc | hc
        · split at hc
          · exact absurd hc (List.not_mem_nil c)
          case isFalse hne =>
            rw [List.mem_singleton] at hc
            subst hc
            exact ⟨pyStrip_idem _, hne⟩
        · have hrest : (pyStrip (r.drop sp)).length ≤ n := by
            have h1 := (findSplitPos_some hf).1
            have h2 := pyStrip_length_le (r.drop sp)
            have h3 : (r.drop sp).length = r.length - sp := List.length_drop sp r
            have h4 : r.length ≠ 0 :=
              fun hh => hg.1 (List.length_eq_zero.mp hh)
            omega
          exact ih (pyStrip (r.drop sp)) hrest (Or.inr (pyStrip_idem _)) c hc
      case h_2 hf =>
        have := findSplitPos_isSome hg.1 hB
        rw [hf] at this
        exact absurd this (by simp)
    case isFalse hg =>
      split at hc
      · exact absurd hc (List.not_mem_nil c)
      case isFalse hne =>
        rw [List.mem_singleton] at hc
        subst hc
        rw [not_and_or] at hg
        rcases hg with hg | hg
        · exact absurd hne (by simpa using hg)
        · rcases hr with hr | hr
          · exact absurd hr (by simpa using hg)
          · exact ⟨hr, hne⟩

/-- Counterexample to C6 as stated: the fast path of
`split_message_at_boundary` (src/main.py lines 2996-2998) returns a text that
already fits the budget untouched, so the chunk `" a "` is emitted untrimmed
and the empty input yields the empty chunk `""`. -/
theorem C6_counterexample :
    ¬ (∀ c ∈ split_message_at_boundary " a ".data 4, pyStrip c = c) ∧
      ¬ (∀ c ∈ split_message_at_boundary "".data 4, c ≠ []) := by
  constructor
  · intro h
    have := h " a ".data (by decide)
    revert this
    decide
  · intro h
    exact h "".data (by decide) (by decide)

/-- C6 as amended: when the input text does NOT fit the budget (so the
splitting loop actually runs), every returned chunk is trimmed of leading and
trailing whitespace and no returned chunk is empty; an input that fits the
budget is returned as the single chunk completely untouched (possibly
untrimmed or empty). -/
theorem C6_amended_loop_chunks_trimmed_nonempty (text : List Char) (B : Nat)
    (hB : 4 ≤ B) (hover : B < utf8Len text) (c : List Char)
    (hc : c ∈ split_message_at_boundary text B) :
    pyStrip c = c ∧ c ≠ [] := by
  unfold split_message_at_boundary at hc
  rw [if_neg (by omega)] at hc
  exact splitLoopF_trimmed B hB text.length text (Nat.le_refl _)
    (Or.inl hover) c hc

/-- Witness for the amended C6 at a concrete input: `"hello world"` with
budget 4 does not fit, and its first chunk `"hell"` is trimmed and
non-empty. -/
theorem C6_amended_witness : pyStrip "hell".data = "hell".data ∧
    "hell".data ≠ [] :=
  C6_amended_loop_chunks_trimmed_nonempty "hello world".data 4 (by decide)
    (by decide) "hell".data (by decide)

/-! ### C7: the worked example of the spec produces three chunks -/

theorem findDown_eq_some_of_max {p : Nat → Bool} :
    ∀ {n j : Nat}, p j = true → 1 ≤ j → j ≤ n →
      (∀ k, j < k → k ≤ n → p k = false) → findDown p n = some j := by
  intro n
  induction n with
  | zero => intro j _ h1 h2 _; omega
  | succ n ih =>
    intro j hp h1 h2 hmax
    by_cases hs : j = n + 1
    · subst hs; simp [findDown, hp]
    · have hj : j ≤ n := by omega
      have hpn : p (n + 1) = false := hmax (n + 1) (by omega) (Nat.le_refl _)
      simp only [findDown, hpn, Bool.false_eq_true, if_false]
      exact ih hp h1 hj (fun k hk1 hk2 => hmax k hk1 (by omega))

theorem findDown_eq_none_of {p : Nat → Bool} :
    ∀ {n : Nat}, (∀ k, 1 ≤ k → k ≤ n → p k = false) → findDown p n = none := by
  intro n
  induction n with
  | zero => intro _; rfl
  | succ n ih =>
    intro h
    have hpn : p (n + 1) = false := h (n + 1) (by omega) (Nat.le_refl _)
    simp only [findDown, hpn, Bool.false_eq_true, if_false]
    exact ih (fun k hk1 hk2 => h k hk1 (by omega))

theorem utf8Len_eq_length {l : List Char} (h : ∀ c ∈ l, utf8CharLen c = 1) :
    utf8Len l = l.length := by
  induction l with
  | nil => rfl
  | cons x xs ih =>
    rw [utf8Len_cons, h x (List.mem_cons_self x xs),
      ih (fun c hc => h c (List.mem_cons_of_mem x hc)), List.length_cons]
    omega

theorem C7text_ascii : ∀ c ∈ C7text, utf8CharLen c = 1 := by
  intro c hc
  unfold C7text at hc
  rw [List.mem_append] at hc
  rcases hc with hc | hc
  · rw [(List.mem_replicate.mp hc).2]; decide
  · rcases List.mem_cons.mp hc with h | hc
    · rw [h]; decide
    · rcases List.mem_cons.mp hc with h | hc
      · rw [h]; decide
      · rw [(List.mem_replicate.mp hc).2]; decide

theorem C7text_length : C7text.length = 9000 := by
  unfold C7text
  rw [List.length_append, List.length_replicate, List.length_cons,
    List.length_cons, List.length_replicate]

theorem C7text_ne_nil : C7text ≠ [] := by
  intro h
  have h2 := C7text_length
  rw [h, List.length_nil] at h2
  exact absurd h2 (by omega)

theorem utf8Len_C7text_take (k : Nat) : utf8Len (C7text.take k) = min k 9000 := by
  rw [utf8Len_eq_length (fun c hc => C7text_ascii c (List.take_subset _ _ hc)),
    List.length_take, C7text_length]

theorem utf8Len_C7text : utf8Len C7text = 9000 := by
  rw [utf8Len_eq_length C7text_ascii, C7text_length]

theorem C7text_get_lt {i : Nat} (h : i < 3500) : C7text[i]? = some 'a' := by
  unfold C7text
  rw [List.getElem?_append, List.length_replicate, if_pos h,
    List.getElem?_replicate_of_lt h]

theorem C7text_get_nl1 : C7text[3500]? = some '\n' := by
  unfold C7text
  rw [List.getElem?_append, List.length_replicate, if_neg (by omega),
    show (3500 : Nat) - 3500 = 0 from by omega, List.getElem?_cons_zero]

theorem C7text_get_nl2 : C7text[3501]? = some '\n' := by
  unfold C7text
  rw [List.getElem?_append, List.length_replicate, if_neg (by omega),
    show (3501 : Nat) - 3500 = 0 + 1 from by omega,
    List.getElem?_cons_succ, List.getElem?_cons_zero]

theorem C7text_get_hi {i : Nat} (h1 : 3502 ≤ i) (h2 : i < 9000) :
    C7text[i]? = some 'a' := by
  unfold C7text
  rw [List.getElem?_append, List.length_replicate, if_neg (by omega),
    show i - 3500 = (i - 3502) + 1 + 1 from by omega,
    List.getElem?_cons_succ, List.getElem?_cons_succ,
    List.getElem?_replicate_of_lt (by omega)]

theorem C7_findDouble : findDoubleNewline C7text 4096 = some 3501 := by
  unfold findDoubleNewline
  rw [C7text_length]
  apply findDown_eq_some_of_max
  · simp only [show (3501 : Nat) - 1 = 3500 from rfl, C7text_get_nl1,
      C7text_get_nl2, utf8Len_C7text_take]
    decide
  · omega
  · omega
  · intro k hk1 hk2
    by_cases hbig : 4097 ≤ k
    · simp only [utf8Len_C7text_take]
      rw [decide_eq_false (by omega : ¬ (min k 9000 ≤ 4096))]
      simp only [Bool.and_false]
    · by_cases hk3502 : k = 3502
      · subst hk3502
        simp only [show (3502 : Nat) - 1 = 3501 from rfl, C7text_get_nl2,
          C7text_get_hi (show 3502 ≤ 3502 from by omega)
            (show 3502 < 9000 from by omega),
          utf8Len_C7text_take]
        decide
      · have hget : C7text[k - 1]? = some 'a' :=
          C7text_get_hi (by omega) (by omega)
        rw [hget, show ((some 'a' == some '\n') : Bool) = false from by decide]
        simp only [Bool.false_and]

theorem findSplitPos_of_double {r : List Char} {B i : Nat}
    (h : findDoubleNewline r B = some i) : findSplitPos r B = some i := by
  unfold findSplitPos
  rw [h]

theorem findSplitPos_of_hard {r : List Char} {B i : Nat}
    (h1 : findDoubleNewline r B = none) (h2 : findSingleNewline r B = none)
    (h3 : findSpaceBoundary r B = none) (h4 : findHardCut r B = some i) :
    findSplitPos r B = some i := by
  unfold findSplitPos
  rw [h1, h2, h3, h4]

theorem C7_findSplitPos : findSplitPos C7text 4096 = some 3501 :=
  findSplitPos_of_double C7_findDouble
theorem C7text_take_3501 :
    C7text.take 3501 = List.replicate 3500 'a' ++ ['\n'] := by
  unfold C7text
  rw [List.take_append_eq_append_take, List.length_replicate,
    List.take_replicate, show min 3501 3500 = 3500 from by omega,
    show (3501 : Nat) - 3500 = 0 + 1 from by omega,
    List.take_succ_cons, List.take_zero]

theorem C7text_drop_3501 :
    C7text.drop 3501 = '\n' :: List.replicate 5498 'a' := by
  unfold C7text
  rw [List.drop_append_eq_append_drop, List.length_replicate,
    List.drop_replicate, show (3500 : Nat) - 3501 = 0 from by omega,
    List.replicate_zero, List.nil_append,
    show (3501 : Nat) - 3500 = 0 + 1 from by omega,
    List.drop_succ_cons, List.drop_zero]

theorem repl_a_ne_nil (n : Nat) (h : 0 < n) :
    List.replicate n 'a' ≠ [] := by
  intro hh
  have h2 := congrArg List.length hh
  rw [List.length_replicate, List.length_nil] at h2
  omega

theorem dropWhile_space_repl_a (n : Nat) (h : 0 < n) (rest : List Char) :
    List.dropWhile pyIsSpace (List.replicate n 'a' ++ rest) =
      List.replicate n 'a' ++ rest := by
  cases n with
  | zero => omega
  | succ m =>
    rw [List.replicate_succ, List.cons_append, List.dropWhile_cons]
    rw [show pyIsSpace 'a' = false from by decide]
    simp only [Bool.false_eq_true, if_false]

theorem utf8Len_repl_a (n : Nat) : utf8Len (List.replicate n 'a') = n := by
  induction n with
  | zero => rfl
  | succ m ih =>
    rw [List.replicate_succ, utf8Len_cons, ih,
      show utf8CharLen 'a' = 1 from by decide]
    omega

theorem pyStrip_repl_a (n : Nat) :
    pyStrip (List.replicate n 'a') = List.replicate n 'a' := by
  apply pyStrip_eq_self_of
  · intro a ha
    rw [List.head?_replicate] at ha
    split at ha
    · exact absurd ha (by intro hh; cases hh)
    · rw [Option.some_inj] at ha
      rw [← ha]; decide
  · intro a ha
    rw [List.getLast?_eq_head?_reverse, List.reverse_replicate,
      List.head?_replicate] at ha
    split at ha
    · exact absurd ha (by intro hh; cases hh)
    · rw [Option.some_inj] at ha
      rw [← ha]; decide

theorem pyStrip_repl_a_nl (n : Nat) (h : 0 < n) :
    pyStrip (List.replicate n 'a' ++ ['\n']) = List.replicate n 'a' := by
  unfold pyStrip
  rw [dropWhile_space_repl_a n h ['\n']]
  rw [List.reverse_append, List.reverse_replicate,
    show (['\n'] : List Char).reverse = ['\n'] from rfl,
    List.singleton_append, List.dropWhile_cons,
    show pyIsSpace '\n' = true from by decide]
  simp only [if_true]
  rw [show List.dropWhile pyIsSpace (List.replicate n 'a') =
      List.replicate n 'a' from by
    have h2 := dropWhile_space_repl_a n h []
    rwa [List.append_nil] at h2]
  exact List.reverse_replicate n 'a'

theorem pyStrip_nl_repl_a (n : Nat) (h : 0 < n) :
    pyStrip ('\n' :: List.replicate n 'a') = List.replicate n 'a' := by
  unfold pyStrip
  rw [List.dropWhile_cons, show pyIsSpace '\n' = true from by decide]
  simp only [if_true]
  rw [show List.dropWhile pyIsSpace (List.replicate n 'a') =
      List.replicate n 'a' from by
    have h2 := dropWhile_space_repl_a n h []
    rwa [List.append_nil] at h2]
  rw [List.reverse_replicate]
  rw [show List.dropWhile pyIsSpace (List.replicate n 'a') =
      List.replicate n 'a' from by
    have h2 := dropWhile_space_repl_a n h []
    rwa [List.append_nil] at h2]
  exact List.reverse_replicate n 'a'

theorem C7_findDouble2 :
    findDoubleNewline (List.replicate 5498 'a') 4096 = none := by
  unfold findDoubleNewline
  rw [List.length_replicate]
  apply findDown_eq_none_of
  intro k hk1 hk2
  rw [List.getElem?_replicate_of_lt (show k - 1 < 5498 from by omega),
    show ((some 'a' == some '\n') : Bool) = false from by decide]
  simp only [Bool.false_and]

theorem C7_findSingle2 :
    findSingleNewline (List.replicate 5498 'a') 4096 = none := by
  unfold findSingleNewline
  rw [List.length_replicate]
  apply findDown_eq_none_of
  intro k hk1 hk2
  rw [List.getElem?_replicate_of_lt (show k < 5498 from by omega),
    show ((some 'a' == some '\n') : Bool) = false from by decide]
  simp only [Bool.false_and]

theorem C7_findSpace2 :
    findSpaceBoundary (List.replicate 5498 'a') 4096 = none := by
  unfold findSpaceBoundary
  rw [List.length_replicate]
  apply findDown_eq_none_of
  intro k hk1 hk2
  rw [List.getElem?_replicate_of_lt (show k < 5498 from by omega),
    show ((some 'a' == some ' ') : Bool) = false from by decide]
  simp only [Bool.false_and]

theorem C7_findHard2 :
    findHardCut (List.replicate 5498 'a') 4096 = some 4096 := by
  unfold findHardCut
  rw [List.length_replicate]
  apply findDown_eq_some_of_max
  · rw [List.take_replicate, show min 4096 5498 = 4096 from by omega,
      utf8Len_repl_a]
    decide
  · omega
  · omega
  · intro k hk1 hk2
    rw [List.take_replicate, show min k 5498 = k from by omega,
      utf8Len_repl_a, decide_eq_false (show ¬ (k ≤ 4096) from by omega)]

theorem C7_findSplitPos2 :
    findSplitPos (List.replicate 5498 'a') 4096 = some 4096 :=
  findSplitPos_of_hard C7_findDouble2 C7_findSingle2 C7_findSpace2
    C7_findHard2

theorem splitLoopF_succ_some {B fuel : Nat} {r : List Char} {sp : Nat}
    (hg : r ≠ [] ∧ B < utf8Len r) (hf : findSplitPos r B = some sp) :
    splitLoopF B (fuel + 1) r =
      (if pyStrip (r.take sp) = [] then [] else [pyStrip (r.take sp)]) ++
        splitLoopF B fuel (pyStrip (r.drop sp)) := by
  simp only [splitLoopF, if_pos hg, hf]

theorem splitLoopF_stop {B fuel : Nat} {r : List Char}
    (hg : ¬ (r ≠ [] ∧ B < utf8Len r)) (hr : r ≠ []) :
    splitLoopF B (fuel + 1) r = [r] := by
  simp only [splitLoopF, if_neg hg, if_neg hr]

theorem C7_split_eval :
    split_message_at_boundary C7text 4096 =
      [List.replicate 3500 'a', List.replicate 4096 'a',
       List.replicate 1402 'a'] := by
  unfold split_message_at_boundary
  rw [if_neg (by rw [utf8Len_C7text]; omega), C7text_length,
    show (9000 : Nat) = 8999 + 1 from rfl,
    splitLoopF_succ_some ⟨C7text_ne_nil, by rw [utf8Len_C7text]; omega⟩
      C7_findSplitPos,
    C7text_take_3501, C7text_drop_3501,
    pyStrip_repl_a_nl 3500 (by omega), pyStrip_nl_repl_a 5498 (by omega),
    if_neg (repl_a_ne_nil 3500 (by omega)),
    show (8999 : Nat) = 8998 + 1 from rfl,
    splitLoopF_succ_some
      ⟨repl_a_ne_nil 5498 (by omega), by rw [utf8Len_repl_a]; omega⟩
      C7_findSplitPos2,
    List.take_replicate, List.drop_replicate,
    show min 4096 5498 = 4096 from by omega,
    show (5498 : Nat) - 4096 = 1402 from by omega,
    pyStrip_repl_a 4096, pyStrip_repl_a 1402,
    if_neg (repl_a_ne_nil 4096 (by omega)),
    show (8998 : Nat) = 8997 + 1 from rfl,
    splitLoopF_stop
      (by
        intro hg
        have h2 := hg.2
        rw [utf8Len_repl_a] at h2
        omega)
      (repl_a_ne_nil 1402 (by omega))]
  rfl

/-- Counterexample to C7 as stated: on the 9000-ASCII-byte input whose only
paragraph break is at byte 3500, splitting with budget 4096 returns THREE
chunks, not two — the remainder after the break is 5498 bytes, which itself
exceeds the budget and is split again. -/
theorem C7_counterexample :
    (split_message_at_boundary C7text 4096).length ≠ 2 := by
  rw [C7_split_eval]
  decide

/-- C7 as amended: on the 9000-ASCII-byte input with its only paragraph break
at byte 3500, splitting with budget 4096 returns exactly three chunks: the
first ends at byte 3500 (trimmed of the break), and the remainder — 5498
bytes, which exceeds the budget — is split again into a 4096-byte chunk and a
1402-byte chunk; every chunk is within the 4096-byte budget. -/
theorem C7_amended_three_chunks :
    split_message_at_boundary C7text 4096 =
      [List.replicate 3500 'a', List.replicate 4096 'a',
       List.replicate 1402 'a'] ∧
    utf8Len (List.replicate 3500 'a') = 3500 ∧
    utf8Len (List.replicate 4096 'a') = 4096 ∧
    utf8Len (List.replicate 1402 'a') = 1402 :=
  ⟨C7_split_eval, utf8Len_repl_a 3500, utf8Len_repl_a 4096,
   utf8Len_repl_a 1402⟩

theorem utf8Len_replicate (n : Nat) (c : Char) :
    utf8Len (List.replicate n c) = n * utf8CharLen c := by
  induction n with
  | zero => simp [utf8Len]
  | succ n ih =>
    rw [List.replicate_succ, utf8Len_cons, ih]
    ring

theorem pyReplaceEscape_cons (ch x : Char) (s : List Char) :
    pyReplaceEscape ch (x :: s) =
      (if x = ch then ['\\', ch] else [x]) ++ pyReplaceEscape ch s := by
  simp [pyReplaceEscape]

theorem pyReplaceEscape_eq_self {ch : Char} :
    ∀ {s : List Char}, (∀ x ∈ s, x ≠ ch) → pyReplaceEscape ch s = s := by
  intro s
  induction s with
  | nil => intro _; rfl
  | cons x xs ih =>
    intro h
    rw [pyReplaceEscape_cons, if_neg (h x (List.mem_cons_self x xs))]
    rw [ih (fun y hy => h y (List.mem_cons_of_mem x hy))]
    rfl

theorem mem_pyReplaceEscape {ch x : Char} :
    ∀ {s : List Char}, x ∈ pyReplaceEscape ch s → x = '\\' ∨ x ∈ s := by
  intro s
  induction s with
  | nil => intro h; simp [pyReplaceEscape] at h
  | cons y ys ih =>
    intro h
    rw [pyReplaceEscape_cons, List.mem_append] at h
    rcases h with h | h
    · split at h
      case isTrue hy =>
        rcases List.mem_pair.mp h with h | h
        · exact Or.inl h
        · exact Or.inr (h ▸ hy ▸ List.mem_cons_self y ys)
      case isFalse hy =>
        rw [List.mem_singleton] at h
        exact Or.inr (h ▸ List.mem_cons_self y ys)
    · rcases ih h with h | h
      · exact Or.inl h
      · exact Or.inr (List.mem_cons_of_mem y h)

theorem utf8Len_pyReplaceEscape_dot (n : Nat) :
    utf8Len (pyReplaceEscape '.' (List.replicate n '.')) = 2 * n := by
  induction n with
  | zero => rfl
  | succ n ih =>
    rw [List.replicate_succ, pyReplaceEscape_cons, if_pos rfl,
      utf8Len_append, ih]
    have : utf8Len ['\\', '.'] = 2 := by decide
    omega

theorem convert_replicate_dot (n : Nat) :
    convert_to_telegram_markdown (List.replicate n '.') =
      pyReplaceEscape '.' (List.replicate n '.') := by
  have hrep : ∀ ch : Char, ch ≠ '.' →
      pyReplaceEscape ch (List.replicate n '.') = List.replicate n '.' := by
    intro ch hch
    apply pyReplaceEscape_eq_self
    intro x hx he
    rw [(List.mem_replicate.mp hx).2] at he
    exact hch he.symm
  have hbang : pyReplaceEscape '!' (pyReplaceEscape '.' (List.replicate n '.')) =
      pyReplaceEscape '.' (List.replicate n '.') := by
    apply pyReplaceEscape_eq_self
    intro x hx he
    rcases mem_pyReplaceEscape hx with h | h
    · rw [h] at he; exact absurd he (by decide)
    · rw [(List.mem_replicate.mp h).2] at he
      exact absurd he (by decide)
  unfold convert_to_telegram_markdown telegramSpecialChars
  simp only [List.foldl_cons, List.foldl_nil,
    hrep '_' (by decide), hrep '*' (by decide), hrep '[' (by decide),
    hrep ']' (by decide), hrep '(' (by decide), hrep ')' (by decide),
    hrep '~' (by decide), hrep (Char.ofNat 96) (by decide),
    hrep '>' (by decide), hrep '#' (by decide), hrep '+' (by decide),
    hrep '-' (by decide), hrep '=' (by decide), hrep '|' (by decide),
    hrep (Char.ofNat 123) (by decide), hrep (Char.ofNat 125) (by decide),
    hbang]

/-- C9: `send_telegram_message` enforces the 4096-byte limit on the chunks
BEFORE MarkdownV2 conversion, not on the transmitted payload: for the input of
4096 dots, every split chunk fits the limit, yet the payload actually posted
(the chunk after escaping) is 8192 bytes, exceeding 4096. -/
theorem C9_payload_exceeds_limit_after_conversion :
    ∃ t : List Char,
      (∀ c ∈ split_message_at_boundary t 4096, utf8Len c ≤ 4096) ∧
      ∃ p ∈ send_telegram_message_payloads t, 4096 < utf8Len p := by
  refine ⟨List.replicate 4096 '.', ?_, ?_⟩
  all_goals
    have hlen : utf8Len (List.replicate 4096 '.') = 4096 := by
      rw [utf8Len_replicate]
      decide
    have hsplit : split_message_at_boundary (List.replicate 4096 '.') 4096 =
        [List.replicate 4096 '.'] := by
      unfold split_message_at_boundary
      rw [if_pos (le_of_eq hlen)]
  · intro c hc
    rw [hsplit, List.mem_singleton] at hc
    subst hc
    omega
  · refine ⟨convert_to_telegram_markdown (List.replicate 4096 '.'), ?_, ?_⟩
    · unfold send_telegram_message_payloads
      rw [hsplit]
      exact List.mem_singleton.mpr rfl
    · rw [convert_replicate_dot, utf8Len_pyReplaceEscape_dot]
      omega


/-! ### C2: the global timeout is assigned but never enforced -/

/-- C2 (code evidence for the bug): the source assigns `timeout_seconds = 120`
at line 701 but the consumer loop never reads it.  A stream still yielding
events 400 seconds (more than twice the timeout) after consumption started is
consumed to its end: the late assistant message is still delivered, no
"response took too long" alert is ever sent (no such alert exists anywhere in
the loop), and the run terminates without error only because the stream
itself ends. -/
theorem C2_timeout_never_enforced :
    2 * timeout_seconds < 400 ∧
    processMessageStreaming alwaysOk "Agent" "chat" 1000
      (Except.ok ([(1000, AgentEvent.otherType "usage_statistics"),
                   (1200, AgentEvent.otherType "usage_statistics"),
                   (1400, AgentEvent.assistantMessage "Done")], none)) =
      ([Output.typing "chat", Output.typing "chat",
        Output.message "chat" "(**Agent** says)\n\nDone" true], none) ∧
    ((processMessageStreaming alwaysOk "Agent" "chat" 1000
      (Except.ok ([(1000, AgentEvent.otherType "usage_statistics"),
                   (1200, AgentEvent.otherType "usage_statistics"),
                   (1400, AgentEvent.assistantMessage "Done")], none))).1.all
      (fun o => !(outputMentions "took too long" o))) = true := by
  refine ⟨by decide, by decide, by decide⟩

/-! ### C3: there is no retry around the stream-opening call -/

/-- Counterexample to C3: with an opener that always fails with an upstream
HTTP 500 (the designated transient class), the embedded call makes exactly
one attempt — not `max_retries + 1 = 4` — and the two alerts it sends are the
immediate "Letta Error" report and the background-processing report; neither
mentions service unavailability, and no backoff delay exists. -/
theorem C3_counterexample :
    (runAgentCall (fun _ => Except.error (StreamErr.api http500)) alwaysOk
        "Agent" "chat" 0).1.length = 1 ∧
    (runAgentCall (fun _ => Except.error (StreamErr.api http500)) alwaysOk
        "Agent" "chat" 0).1.length ≠ 3 + 1 ∧
    ((runAgentCall (fun _ => Except.error (StreamErr.api http500)) alwaysOk
        "Agent" "chat" 0).2.1.all
      (fun o => !(outputMentions "temporarily unavailable" o))) = true := by
  refine ⟨rfl, by decide, by decide⟩

/-- C3 as amended: the stream-opening call is attempted exactly once for
every failure class — there is no retry loop and no backoff; an `ApiError`
(any status, transient or not) immediately produces one terminal
"❌ Letta Error …" alert followed by the outer background-processing report,
and the exception is propagated to the caller. -/
theorem C3_amended_single_attempt_immediate_alert (e : ApiErr)
    (sendOk : Nat → Bool) (agentName chatId : String) (t0 : Nat) :
    runAgentCall (fun _ => Except.error (StreamErr.api e)) sendOk agentName
      chatId t0 =
      ([0],
       ([Output.message chatId ("❌ " ++ apiErrorUserMsg e) true,
         Output.message chatId
           ("❌ Error in background processing: " ++ e.display) true],
        some (StreamErr.api e))) := rfl

/-! ### C4: delivery order follows event order -/

/-- C4: the chat messages sent for one inbound message appear in event order:
the consumer loop emits the outputs of the head event before any output of
the remaining events (first conjunct, the defining recursion), and on the
concrete stream [assistant "Hello", unknown event, system alert
"rate limited"] the sink receives exactly two sends — the text first and the
alert second. -/
theorem C4_outputs_in_event_order :
    (∀ (sendOk : Nat → Bool) (an ch : String) (st : ConsumeState) (t : Nat)
        (ev : AgentEvent) (rest : List (Nat × AgentEvent)),
      (consumeEvents sendOk an ch st ((t, ev) :: rest)).2 =
        (processEvent sendOk an ch st t ev).2 ++
          (consumeEvents sendOk an ch
            (processEvent sendOk an ch st t ev).1 rest).2) ∧
    (consumeEvents alwaysOk "Agent" "chat" ⟨1000, 0⟩
      [(1000, AgentEvent.assistantMessage "Hello"),
       (1001, AgentEvent.otherType "usage_statistics"),
       (1002, AgentEvent.systemAlert "rate limited")]).2 =
      [Output.message "chat" "(**Agent** says)\n\nHello" true,
       Output.message "chat" "(info: rate limited)" true] :=
  ⟨fun _ _ _ _ _ _ _ => rfl, by decide⟩

/-! ### C5: tool-call argument fallbacks -/

/-- Counterexample to C5 as stated: a `tool_call_message` whose argument
string is empty falls outside the `if arguments and arguments.strip():` guard
(src/main.py line 743), so NO message is sent at all — not a tool summary
carrying the raw (empty) argument string. -/
theorem C5_counterexample :
    (processEvent alwaysOk "Agent" "chat" ⟨1000, 0⟩ 1000
      (AgentEvent.toolCallMessage "web_search" "")).2 = [] := by decide

/-- C5 as amended: for a `tool_call_message` whose argument string is
non-empty (also after stripping) but not parseable as JSON, exactly one chat
message is sent — the fallback rendering containing the tool name and the raw
argument string (first conjunct); an internal rendering failure for a
successfully parsed tool message (here `archival_memory_insert` without its
expected `content` key) degrades to the same raw fallback (second conjunct).
An empty or whitespace-only argument string, however, produces no delivery at
all. -/
theorem C5_amended_raw_fallback :
    (∀ (agentName chatId name args : String) (st : ConsumeState) (t : Nat),
      args ≠ "" → pyStripS args ≠ "" → jsonLoads args = none →
      (processEvent alwaysOk agentName chatId st t
        (AgentEvent.toolCallMessage name args)).2 =
        (if 30 < t - st.lastActivity then [Output.typing chatId] else []) ++
          [Output.message chatId
            (toolCallFallback agentName name args) true]) ∧
    (processEvent alwaysOk "Agent" "chat" ⟨1000, 0⟩ 1000
      (AgentEvent.toolCallMessage "archival_memory_insert"
        "\x7b\"foo\": 1\x7d")).2 =
      [Output.message "chat"
        (toolCallFallback "Agent" "archival_memory_insert"
          "\x7b\"foo\": 1\x7d") true] := by
  constructor
  · intro agentName chatId name args st t hne hstrip hjson
    by_cases hc : 30 < t - st.lastActivity <;>
      simp [processEvent, sendTelegram, alwaysOk, hc, hne, hstrip, hjson]
  · decide

/-- Witness for the amended C5: the concrete non-JSON argument string
`"oops"` yields exactly the raw fallback message. -/
theorem C5_amended_witness :
    (processEvent alwaysOk "Agent" "chat" ⟨1000, 0⟩ 1000
      (AgentEvent.toolCallMessage "web_search" "oops")).2 =
      [Output.message "chat"
        (toolCallFallback "Agent" "web_search" "oops") true] := by
  have h := C5_amended_raw_fallback.1 "Agent" "chat" "web_search" "oops"
    ⟨1000, 0⟩ 1000 (by decide) (by decide) rfl
  simpa using h

/-! ### C8: per-event failures are swallowed, iterator failures are not -/

/-- C8: an exception while classifying, rendering or delivering one event is
caught by the per-event handler and consumption continues — a run whose
iterator terminates normally never propagates an exception, whatever the
transport does (first conjunct) — whereas an exception from the stream
iterator itself is reported to the chat (by the matching handler and then by
the outermost one) and propagated to the caller (second conjunct).
Concretely, with a transport refusing exactly the second send, the first and
third messages are still attempted in order and the run completes cleanly
(third conjunct). -/
theorem C8_event_failures_continue_iterator_failures_propagate :
    (∀ (sendOk : Nat → Bool) (an ch : String) (t0 : Nat)
        (events : List (Nat × AgentEvent)),
      (processMessageStreaming sendOk an ch t0
        (Except.ok (events, none))).2 = none) ∧
    (∀ (sendOk : Nat → Bool) (an ch : String) (t0 : Nat)
        (events : List (Nat × AgentEvent)) (e : StreamErr),
      processMessageStreaming sendOk an ch t0 (Except.ok (events, some e)) =
        ((consumeEvents sendOk an ch ⟨t0, 0⟩ events).2 ++
          [Output.message ch (streamErrAlert e) true,
           Output.message ch
             ("❌ Error in background processing: " ++ strOfErr e) true],
         some e)) ∧
    (processMessageStreaming (fun k => k != 1) "Agent" "chat" 1000
        (Except.ok ([(1000, AgentEvent.assistantMessage "one"),
                     (1001, AgentEvent.assistantMessage "two"),
                     (1002, AgentEvent.assistantMessage "three")], none))).1 =
      [Output.message "chat" "(**Agent** says)\n\none" true,
       Output.message "chat" "(**Agent** says)\n\ntwo" false,
       Output.message "chat" "(**Agent** says)\n\nthree" true] :=
  ⟨fun _ _ _ _ _ => rfl,
   fun _ _ _ _ _ _ => by simp [processMessageStreaming],
   by decide⟩

/-! ### C10: reasoning messages are delivered unconditionally -/

/-- C10: a `reasoning_message` is delivered unconditionally — for every
reasoning text exactly one message is sent, with no emptiness guard (first
conjunct); empty reasoning produces the agent-name header plus the empty
blockquote `"> "` (second and third conjuncts) — whereas `assistant_message`
and `system_alert` events whose text is empty or whitespace-only are
suppressed (fourth and fifth conjuncts). -/
theorem C10_reasoning_sent_unconditionally :
    (∀ (r : String) (st : ConsumeState) (t : Nat),
      (processEvent alwaysOk "Agent" "chat" st t
        (AgentEvent.reasoningMessage r)).2 =
        (if 30 < t - st.lastActivity then [Output.typing "chat"] else []) ++
          [Output.message "chat"
            ("(**Agent** thought)\n\n" ++ blockquote_message r) true]) ∧
    blockquote_message "" = "> " ∧
    (processEvent alwaysOk "Agent" "chat" ⟨1000, 0⟩ 1000
      (AgentEvent.reasoningMessage "")).2 =
      [Output.message "chat" "(**Agent** thought)\n\n> " true] ∧
    (∀ (s : String) (st : ConsumeState) (t : Nat), pyStripS s = "" →
      (processEvent alwaysOk "Agent" "chat" st t
        (AgentEvent.assistantMessage s)).2 =
        (if 30 < t - st.lastActivity then [Output.typing "chat"] else [])) ∧
    (∀ (s : String) (st : ConsumeState) (t : Nat), pyStripS s = "" →
      (processEvent alwaysOk "Agent" "chat" st t
        (AgentEvent.systemAlert s)).2 =
        (if 30 < t - st.lastActivity then [Output.typing "chat"] else [])) := by
  refine ⟨?_, by decide, by decide, ?_, ?_⟩
  · intro r st t
    by_cases hc : 30 < t - st.lastActivity <;>
      simp [processEvent, sendTelegram, alwaysOk, hc]
  · intro s st t hs
    have hg : ¬(s ≠ "" ∧ pyStripS s ≠ "") := fun h => h.2 hs
    by_cases hc : 30 < t - st.lastActivity <;>
      simp [processEvent, hg, hc]
  · intro s st t hs
    have hg : ¬(s ≠ "" ∧ pyStripS s ≠ "") := fun h => h.2 hs
    by_cases hc : 30 < t - st.lastActivity <;>
      simp [processEvent, hg, hc]

/-- Witness for C10: empty assistant and alert text at a concrete state send
nothing, while non-empty reasoning at the same state sends exactly one
message. -/
theorem C10_witness :
    (processEvent alwaysOk "Agent" "chat" ⟨1000, 0⟩ 1000
      (AgentEvent.assistantMessage " ")).2 = [] ∧
    (processEvent alwaysOk "Agent" "chat" ⟨1000, 0⟩ 1000
      (AgentEvent.systemAlert " ")).2 = [] ∧
    (processEvent alwaysOk "Agent" "chat" ⟨1000, 0⟩ 1000
      (AgentEvent.reasoningMessage "hi")).2 =
      [Output.message "chat" "(**Agent** thought)\n\n> hi" true] := by
  refine ⟨?_, ?_, ?_⟩
  · have h := C10_reasoning_sent_unconditionally.2.2.2.1 " " ⟨1000, 0⟩ 1000
      (by decide)
    simpa using h
  · have h := C10_reasoning_sent_unconditionally.2.2.2.2 " " ⟨1000, 0⟩ 1000
      (by decide)
    simpa using h
  · have h := C10_reasoning_sent_unconditionally.1 "hi" ⟨1000, 0⟩ 1000
    simpa using h

end LettaTelegram
